import Mathlib

set_option maxHeartbeats 1000000

/-!
Shallow embedding of `tools/subtensor-sim/src/main.rs` (the subtensor
what-if simulator).  The chain client, inherent-data providers and block
builder are external collaborators; they are modelled as record fields of
`Client` holding arbitrary (fallible) functions, so every theorem below is
quantified over their behaviour.  u64 arithmetic is modelled on `Nat` with
an explicit wrap `% 2 ^ 64` where overflow is reachable (`days * 7200`);
counters that cannot overflow within a run (`block_count`, the loop index)
stay plain `Nat`.  The Rust panic on `% 0` is modelled explicitly as a
`panicked` outcome.
-/

/-- 2 ^ 64, the wrap modulus of Rust `u64` arithmetic. -/
def u64Limit : Nat := 2 ^ 64

/-- A block hash: a byte list (`H256` is 32 bytes; lengths are tracked by
theorems, not by the type, because `get_start_block` must be able to decode
hex strings of the wrong length). -/
abbrev Hash := List Nat

/-- One subnet row of `subtensor_custom_rpc_runtime_api::BlockMetrics`. -/
structure SubnetMetric where
  netuid : Nat
  stake_total : Nat
  emission_per_block : Nat
  participants : Nat

/-- `subtensor_custom_rpc_runtime_api::BlockMetrics`. -/
structure BlockMetrics where
  block_number : Nat
  state_root : List Nat
  timestamp_ms : Nat
  subnets : List SubnetMetric

/-- Result of `InherentDataProviders::create_inherent_data`; `extrinsics`
is what `create_extrinsics()` returns (extrinsics modelled as opaque `Nat`). -/
structure InherentData where
  extrinsics : List Nat

/-- A built block; only its hash is consumed by the driver. -/
structure Block where
  hash : Hash

/-- The `Cli` fields the simulator core reads (`json_out`, `chain` and the
substrate parameter bundles configure external collaborators and are out of
scope). -/
structure Cli where
  start_block : Option String
  horizon_blocks : Option Nat
  horizon_days : Option Nat
  feature_inherent_only : Bool
  progress_every : Nat
  flush_every : Nat

/-- The chain client adapter plus the inherent-data provider: every call the
driver makes, with the same fallibility layers as the source (`?` on the
outer `Result`, `Option`/inner `Result` inside). `build_block` collapses
`new_block_at` + the `push` loop + `build` into one fallible call, keeping
the extrinsic list explicit. -/
structure Client where
  (best_hash : Hash)
  (hashAt : Nat → Except String (Option Hash))
  (header : Hash → Except String (Option Unit))
  (create_inherent_data : Except String InherentData)
  (build_block : Hash → List Nat → Except String Block)
  (import_block : Block → Except String (Except String Unit))
  (block_metrics : Hash → Except String BlockMetrics)

/-- `Simulator::get_horizon_blocks` (main.rs lines 204-211).  `days * 7200`
is u64 multiplication, hence the wrap. -/
def get_horizon_blocks (horizon_blocks horizon_days : Option Nat) : Except String Nat :=
  match horizon_blocks, horizon_days with
  | some blocks, none => Except.ok blocks
  | none, some days => Except.ok (days * 7200 % u64Limit)
  | some _, some _ => Except.error "Cannot specify both --horizon-blocks and --horizon-days"
  | none, none => Except.error "Must specify either --horizon-blocks or --horizon-days"

/-- Value of one hex digit character, as accepted by `hex::decode`
(both cases accepted on input). -/
def hexVal (ch : Char) : Option Nat :=
  if '0' ≤ ch ∧ ch ≤ '9' then some (ch.toNat - 48)
  else if 'a' ≤ ch ∧ ch ≤ 'f' then some (ch.toNat - 87)
  else if 'A' ≤ ch ∧ ch ≤ 'F' then some (ch.toNat - 55)
  else none

/-- `hex::decode` on a character list: fails on odd length or a non-hex
character, otherwise produces one byte per digit pair. -/
def hexDecodeList : List Char → Option (List Nat)
  | [] => some []
  | [_] => none
  | c1 :: c2 :: rest =>
      match hexVal c1, hexVal c2, hexDecodeList rest with
      | some hi, some lo, some tail => some ((hi * 16 + lo) :: tail)
      | _, _, _ => none

/-- `hex::decode` on a string. -/
def hexDecode (s : String) : Option (List Nat) :=
  hexDecodeList s.toList

/-- Rust `str::parse::<u64>`: optional leading plus sign, ASCII digits only,
non-empty, value below 2^64. -/
def parseU64 (s : String) : Option Nat :=
  let chars := s.toList
  let digits := if chars.head? = some '+' then chars.tail else chars
  if digits.isEmpty then none
  else if digits.all (fun ch => decide ('0' ≤ ch ∧ ch ≤ '9')) then
    let n := digits.foldl (fun acc ch => acc * 10 + (ch.toNat - 48)) 0
    if n < u64Limit then some n else none
  else none

/-- Rust `block.starts_with("0x")`, written over the character list so it
evaluates in the kernel. -/
def startsWith0x (s : String) : Bool :=
  match s.toList with
  | c1 :: c2 :: _ => c1 == '0' && c2 == 'x'
  | _ => false

/-- Rust `&block[2..]` on an `"0x"`-prefixed string (the first two
characters are ASCII there, so byte slicing equals character slicing). -/
def drop2 (s : String) : String :=
  String.mk (s.toList.drop 2)

/-- `Simulator::get_start_block` (main.rs lines 176-202). -/
def get_start_block (start_block : Option String) (c : Client) : Except String Hash :=
  match start_block with
  | some block =>
      if startsWith0x block then
        match hexDecode (drop2 block) with
        | none => Except.error "hex decode failure"
        | some hash_bytes =>
            if hash_bytes.length ≠ 32 then Except.error "Invalid hash length"
            else Except.ok hash_bytes
      else
        match parseU64 block with
        | none => Except.error "invalid digit found in string"
        | some block_num =>
            match c.hashAt block_num with
            | Except.error e => Except.error e
            | Except.ok none => Except.error "Block not found"
            | Except.ok (some hash) => Except.ok hash
  | none => Except.ok c.best_hash

/-- The JSON values `serde_json::json!` builds in `write_metrics`. -/
inductive Json where
  | num (n : Nat)
  | str (s : String)
  | arr (xs : List Json)
  | obj (fields : List (String × Json))

/-- Field lookup in a JSON object. -/
def Json.lookup (key : String) : Json → Option Json
  | Json.obj fields => fields.lookup key
  | _ => none

/-- Lowercase hex digit for a nibble (`hex::encode` output alphabet). -/
def hexDigit (n : Nat) : Char :=
  if n < 10 then Char.ofNat (48 + n) else Char.ofNat (87 + n)

/-- `hex::encode`: two lowercase digits per byte, high nibble first. -/
def hexEncodeList : List Nat → List Char
  | [] => []
  | b :: rest => hexDigit (b % 256 / 16) :: hexDigit (b % 16) :: hexEncodeList rest

/-- `hex::encode` producing a string. -/
def hexEncode (bytes : List Nat) : String :=
  String.mk (hexEncodeList bytes)

/-- The per-subnet JSON object of `write_metrics`: `stake_total` and
`emission_per_block` go through `.to_string()` (decimal strings), the other
two stay numeric. -/
def subnetJson (s : SubnetMetric) : Json :=
  Json.obj [("netuid", Json.num s.netuid),
            ("stake_total", Json.str (Nat.repr s.stake_total)),
            ("emission_per_block", Json.str (Nat.repr s.emission_per_block)),
            ("participants", Json.num s.participants)]

/-- The JSON line `write_metrics` serializes for one record (main.rs lines
214-224). -/
def jsonOfMetrics (m : BlockMetrics) : Json :=
  Json.obj [("block_number", Json.num m.block_number),
            ("state_root", Json.str ("0x" ++ hexEncode m.state_root)),
            ("timestamp_ms", Json.num m.timestamp_ms),
            ("subnets", Json.arr (m.subnets.map subnetJson))]

/-- Observable sink actions: a line appended to the `BufWriter`, or an
explicit flush of the buffer to the file. -/
inductive Event where
  | append (line : Json)
  | flush

/-- Is this event a flush? -/
def Event.isFlush : Event → Bool
  | Event.flush => true
  | Event.append _ => false

/-- Number of flush events. -/
def countFlushes (es : List Event) : Nat :=
  es.countP Event.isFlush

/-- Number of append events (records written). -/
def countAppends (es : List Event) : Nat :=
  es.countP (fun e => !e.isFlush)

/-- The mutable simulator state the sink claims are about:
`Simulator::block_count` plus the ordered log of sink events. -/
structure SimState where
  block_count : Nat
  events : List Event

/-- Result of `write_metrics`: `panicked` models the Rust panic on
`block_count % 0`. -/
inductive WriteOutcome where
  | ok (st : SimState)
  | panicked (st : SimState)

/-- `Simulator::write_metrics` (main.rs lines 213-235): serialize one line,
append it, bump `block_count`, then flush when `block_count % flush_every`
is zero.  Rust `%` panics when `flush_every = 0`, after the line has gone to
the buffer and the counter has been bumped. -/
def write_metrics (fe : Nat) (m : BlockMetrics) (st : SimState) : WriteOutcome :=
  let line := jsonOfMetrics m
  let st1 : SimState := { block_count := st.block_count + 1,
                          events := st.events ++ [Event.append line] }
  if fe = 0 then WriteOutcome.panicked st1
  else if st1.block_count % fe = 0 then
    WriteOutcome.ok { st1 with events := st1.events ++ [Event.flush] }
  else WriteOutcome.ok st1

/-- Result of one `step_block` call. -/
inductive StepOutcome where
  | ok (newHash : Hash) (st : SimState)
  | err (msg : String) (st : SimState)
  | panicked (st : SimState)

/-- `Simulator::step_block` (main.rs lines 237-276): parent header lookup,
inherent data, build with exactly the inherent extrinsics, blocking import
(outer `?` plus inner import result), metrics query, then `write_metrics`;
any failure returns early with the state untouched. -/
def step_block (c : Client) (fe : Nat) (parent : Hash) (st : SimState) : StepOutcome :=
  match c.header parent with
  | Except.error e => StepOutcome.err e st
  | Except.ok none => StepOutcome.err "Parent header not found" st
  | Except.ok (some _) =>
      match c.create_inherent_data with
      | Except.error e => StepOutcome.err e st
      | Except.ok inherent_data =>
          match c.build_block parent inherent_data.extrinsics with
          | Except.error e => StepOutcome.err e st
          | Except.ok block =>
              match c.import_block block with
              | Except.error e => StepOutcome.err e st
              | Except.ok (Except.error e) =>
                  StepOutcome.err ("Failed to import block: " ++ e) st
              | Except.ok (Except.ok _) =>
                  match c.block_metrics block.hash with
                  | Except.error e => StepOutcome.err e st
                  | Except.ok metrics =>
                      match write_metrics fe metrics st with
                      | WriteOutcome.panicked st1 => StepOutcome.panicked st1
                      | WriteOutcome.ok st1 => StepOutcome.ok block.hash st1

/-- Result of `Simulator::run`, with a ghost trace recording, per successful
step, the parent hash handed to `step_block` and the hash it returned. -/
inductive RunOutcome where
  | ok (st : SimState) (trace : List (Hash × Hash))
  | err (msg : String) (st : SimState) (trace : List (Hash × Hash))
  | panicked (st : SimState) (trace : List (Hash × Hash))

/-- Final state of a run outcome. -/
def RunOutcome.state : RunOutcome → SimState
  | RunOutcome.ok st _ => st
  | RunOutcome.err _ st _ => st
  | RunOutcome.panicked st _ => st

/-- Ghost trace of a run outcome. -/
def RunOutcome.trace : RunOutcome → List (Hash × Hash)
  | RunOutcome.ok _ tr => tr
  | RunOutcome.err _ _ tr => tr
  | RunOutcome.panicked _ tr => tr

/-- Sink event log of a run outcome. -/
def RunOutcome.events (o : RunOutcome) : List Event :=
  o.state.events

/-- Did the run return `Ok(())`? -/
def RunOutcome.isOk : RunOutcome → Bool
  | RunOutcome.ok _ _ => true
  | _ => false

/-- Did the run return an error? -/
def RunOutcome.isErr : RunOutcome → Bool
  | RunOutcome.err _ _ _ => true
  | _ => false

/-- The `for i in 0..horizon_blocks` loop of `Simulator::run` (main.rs lines
291-311): check the shutdown signal (`cancel` gives the poll result at each
absolute iteration index), run one step, then evaluate the progress log's
remainder `(i + 1) % progress_every` (main.rs line 302) — with
`progress_every = 0` that Rust `%` panics right after the first successful
step, its record already written; the log itself has no state effect.
Thread the produced hash as the next parent; on loop exit or `break`
perform the final flush; a step error propagates immediately (skipping the
final flush and the progress check). -/
def runLoop (c : Client) (cancel : Nat → Bool) (fe : Nat) (pe : Nat) :
    Nat → Nat → Hash → SimState → List (Hash × Hash) → RunOutcome
  | 0, _, _, st, tr =>
      RunOutcome.ok { st with events := st.events ++ [Event.flush] } tr
  | r + 1, idx, cur, st, tr =>
      if cancel idx then
        RunOutcome.ok { st with events := st.events ++ [Event.flush] } tr
      else
        match step_block c fe cur st with
        | StepOutcome.err e st1 => RunOutcome.err e st1 tr
        | StepOutcome.panicked st1 => RunOutcome.panicked st1 tr
        | StepOutcome.ok newHash st1 =>
            if pe = 0 then RunOutcome.panicked st1 (tr ++ [(cur, newHash)])
            else runLoop c cancel fe pe r (idx + 1) newHash st1
                   (tr ++ [(cur, newHash)])

/-- `Simulator::run` (main.rs lines 278-312): resolve the start hash, then
the horizon, then drive the loop from a fresh state. -/
def run (cli : Cli) (c : Client) (cancel : Nat → Bool) : RunOutcome :=
  match get_start_block cli.start_block c with
  | Except.error e => RunOutcome.err e ⟨0, []⟩ []
  | Except.ok start =>
      match get_horizon_blocks cli.horizon_blocks cli.horizon_days with
      | Except.error e => RunOutcome.err e ⟨0, []⟩ []
      | Except.ok horizon =>
          runLoop c cancel cli.flush_every cli.progress_every horizon 0 start
            ⟨0, []⟩ []

/-- Outcome of `main` (main.rs lines 315-344): `configExit` is a
`process::exit(1)` taken before the simulator is even constructed. -/
inductive MainOutcome where
  | configExit (code : Nat)
  | ran (o : RunOutcome) (code : Nat)

/-- `main`: the duplicated horizon validation, then the run; exit code 0 on
`Ok`, 1 on an error, 101 for a Rust panic. -/
def mainSim (cli : Cli) (c : Client) (cancel : Nat → Bool) : MainOutcome :=
  if cli.horizon_blocks.isSome && cli.horizon_days.isSome then
    MainOutcome.configExit 1
  else if cli.horizon_blocks.isNone && cli.horizon_days.isNone then
    MainOutcome.configExit 1
  else
    let o := run cli c cancel
    MainOutcome.ran o
      (match o with
       | RunOutcome.ok _ _ => 0
       | RunOutcome.err _ _ _ => 1
       | RunOutcome.panicked _ _ => 101)

/-- Process exit code of a `main` outcome. -/
def mainExitCode : MainOutcome → Nat
  | MainOutcome.configExit n => n
  | MainOutcome.ran _ n => n

/-! ## Concrete fixtures used by witnesses and counterexamples -/

/-- A shutdown monitor that never observes a signal. -/
def noCancel : Nat → Bool := fun _ => false

/-- A client whose every operation succeeds: headers always present, empty
inherent extrinsic set, a built block's hash extends its parent's, imports
accepted, metrics derived from the queried hash. -/
def totalClient : Client :=
  { best_hash := [0],
    hashAt := fun n => Except.ok (if n = 5 then some [5] else none),
    header := fun _ => Except.ok (some ()),
    create_inherent_data := Except.ok ⟨[]⟩,
    build_block := fun p _ => Except.ok ⟨p ++ [9]⟩, import_block :=
      fun _ => Except.ok (Except.ok ()),
    block_metrics := fun h => Except.ok ⟨h.length, List.replicate 32 0, 0, []⟩ }

/-- Like `totalClient`, but the import of any block whose hash has grown to
three bytes (i.e. the second block built from parent `[0]`) is rejected. -/
def rejectClient : Client :=
  { totalClient with import_block :=
      fun b =>
        if 3 ≤ b.hash.length then Except.ok (Except.error "rejected")
        else Except.ok (Except.ok ()) }

/-- CLI with the source defaults for the scalar flags and a 10-block horizon. -/
def baseCli : Cli where
  start_block := none
  horizon_blocks := some 10
  horizon_days := none
  feature_inherent_only := true
  progress_every := 100
  flush_every := 100

/-- A concrete metrics record. -/
def mW : BlockMetrics := ⟨7, List.replicate 32 171, 123, [⟨1, 10, 5, 3⟩]⟩

/-- The empty simulator state a run starts from. -/
def stEmpty : SimState := ⟨0, []⟩

/-- A 32-byte zero hash written as 0x-prefixed hex. -/
def hex64Zeros : String :=
  "0x0000000000000000000000000000000000000000000000000000000000000000"

/-- Is this character a lowercase hex digit? -/
def isLowerHexChar (ch : Char) : Bool :=
  "0123456789abcdef".toList.contains ch

/-- Does the ghost trace record a contiguous parent chain starting at `p`:
the first entry's recorded parent is `p`, and every later entry's recorded
parent is the previous entry's produced hash? -/
def chainFrom (p : Hash) : List (Hash × Hash) → Bool
  | [] => true
  | (a, b) :: rest => (a == p) && chainFrom b rest

/-- Every collaborator operation succeeds: headers are always present,
inherent data is produced, and build, import and the metrics query all
return `Ok`. -/
def ClientTotal (c : Client) : Prop :=
  (∀ h, c.header h = Except.ok (some ())) ∧
  (∃ d, c.create_inherent_data = Except.ok d) ∧
  (∀ p xs, ∃ b, c.build_block p xs = Except.ok b) ∧
  (∀ b, c.import_block b = Except.ok (Except.ok ())) ∧
  (∀ h, ∃ m, c.block_metrics h = Except.ok m)

/-- A shutdown monitor whose signal is first observed at the loop boundary
between iterations 2 and 3. -/
def cancelAtTwo : Nat → Bool := fun j => j == 2

/-- `baseCli` with a 5-block horizon, for the cancellation witness. -/
def cliHorizon5 : Cli := { baseCli with horizon_blocks := some 5 }

/-! ## C4: horizon from a day count -/

/-- C4 as frozen is false: `days * 7200` is u64 multiplication, so for
`D = 2^61` the product wraps to 0 instead of the exact integer
`2^61 * 7200`. -/
theorem C4_counterexample :
    get_horizon_blocks none (some 2305843009213693952) ≠
      Except.ok (2305843009213693952 * 7200) := by
  intro h
  have h0 : get_horizon_blocks none (some 2305843009213693952) = Except.ok 0 := rfl
  rw [h0] at h
  exact absurd (Except.ok.inj h) (by decide)

/-- C4 (amended): when only the day horizon is given and `D * 7200` does not
overflow u64, horizon resolution returns exactly `D * 7200`, an exact
integer product with no rounding. -/
theorem C4_horizon_days_exact (D : Nat) (h : D * 7200 < u64Limit) :
    get_horizon_blocks none (some D) = Except.ok (D * 7200) := by
  show Except.ok (D * 7200 % u64Limit) = Except.ok (D * 7200)
  rw [Nat.mod_eq_of_lt h]

/-- Witness for C4_horizon_days_exact at `D = 3`. -/
theorem C4_horizon_days_exact_witness :
    get_horizon_blocks none (some 3) = Except.ok 21600 :=
  C4_horizon_days_exact 3 (by decide)

/-! ## C5: degenerate horizon configurations -/

/-- C5: horizon resolution fails exactly when both horizon forms are given
or neither is, and in those cases `main` exits with code 1 before the
simulator (and hence any block work) is even constructed. -/
theorem C5_horizon_config_errors :
    (∀ hb hd : Option Nat,
       (∃ e, get_horizon_blocks hb hd = Except.error e) ↔
         (((∃ b, hb = some b) ∧ (∃ d, hd = some d)) ∨ (hb = none ∧ hd = none))) ∧
    (∀ (cli : Cli) (c : Client) (cancel : Nat → Bool),
       (∃ e, get_horizon_blocks cli.horizon_blocks cli.horizon_days = Except.error e) →
       mainSim cli c cancel = MainOutcome.configExit 1) := by
  constructor
  · intro hb hd
    cases hb <;> cases hd <;> simp [get_horizon_blocks]
  · intro cli c cancel he
    rcases hcb : cli.horizon_blocks with _ | b <;>
      rcases hcd : cli.horizon_days with _ | d
    · simp [mainSim, hcb, hcd]
    · rw [hcb, hcd] at he
      simp [get_horizon_blocks] at he
    · rw [hcb, hcd] at he
      simp [get_horizon_blocks] at he
    · simp [mainSim, hcb, hcd]

/-- Witness for C5_horizon_config_errors: both horizon flags set. -/
theorem C5_horizon_config_errors_witness :
    (∃ e, get_horizon_blocks (some 1) (some 2) = Except.error e) ∧
    mainSim { baseCli with horizon_blocks := some 1, horizon_days := some 2 }
        totalClient noCancel = MainOutcome.configExit 1 := by
  have h1 := (C5_horizon_config_errors.1 (some 1) (some 2)).mpr
    (Or.inl ⟨⟨1, rfl⟩, ⟨2, rfl⟩⟩)
  exact ⟨h1, C5_horizon_config_errors.2 _ totalClient noCancel h1⟩

/-! ## C9: the --feature-inherent-only flag is parsed but never read -/

/-- C9: two runs on identical inputs differing only in
`feature_inherent_only` behave identically — the flag is never read, and
block construction always pushes only the inherent extrinsics. -/
theorem C9_inherent_only_flag_unused (cli : Cli) (b : Bool) (c : Client)
    (cancel : Nat → Bool) :
    run { cli with feature_inherent_only := b } c cancel = run cli c cancel ∧
    mainSim { cli with feature_inherent_only := b } c cancel = mainSim cli c cancel :=
  ⟨rfl, rfl⟩

/-! ## C10: flush_every = 0 panics on the first append -/

/-- C10: for `flush_every ≥ 1` an append always succeeds, while with
`flush_every = 0` (which the CLI never rules out) the first successful
append hits `block_count % 0` and panics, after the line has been buffered
and the counter bumped but before any flush. -/
theorem C10_flush_every_zero_panics (fe : Nat) (m : BlockMetrics)
    (st : SimState) (hfe : 1 ≤ fe) :
    (∃ st1, write_metrics fe m st = WriteOutcome.ok st1) ∧
    write_metrics 0 m st =
      WriteOutcome.panicked
        ⟨st.block_count + 1, st.events ++ [Event.append (jsonOfMetrics m)]⟩ := by
  have hne : fe ≠ 0 := by omega
  constructor
  · by_cases hmod : (st.block_count + 1) % fe = 0
    · exact ⟨⟨st.block_count + 1,
              st.events ++ [Event.append (jsonOfMetrics m), Event.flush]⟩,
             by simp [write_metrics, hne, hmod]⟩
    · exact ⟨⟨st.block_count + 1, st.events ++ [Event.append (jsonOfMetrics m)]⟩,
             by simp [write_metrics, hne, hmod]⟩
  · simp [write_metrics]

/-- Witness for C10_flush_every_zero_panics at `fe = 1` on a concrete
record and the empty state. -/
theorem C10_flush_every_zero_panics_witness :
    (∃ st1, write_metrics 1 mW stEmpty = WriteOutcome.ok st1) ∧
    write_metrics 0 mW stEmpty =
      WriteOutcome.panicked
        ⟨stEmpty.block_count + 1,
         stEmpty.events ++ [Event.append (jsonOfMetrics mW)]⟩ :=
  C10_flush_every_zero_panics 1 mW stEmpty (by decide)

/-! ## C6: start-point resolution -/

/-- C6: the full case analysis of `get_start_block` — absent start point
resolves to the adapter's best hash; a hex-prefixed string decoding to 32
bytes is returned exactly, any other decoded length is "Invalid hash
length"; otherwise the string parses as a height whose hash is looked up,
with "Block not found" when that height is absent. -/
theorem C6_start_point_resolution (c : Client) :
    (get_start_block none c = Except.ok c.best_hash) ∧
    (∀ (s : String) (bytes : List Nat),
       startsWith0x s = true → hexDecode (drop2 s) = some bytes →
       ((bytes.length = 32 → get_start_block (some s) c = Except.ok bytes) ∧
        (bytes.length ≠ 32 →
           get_start_block (some s) c = Except.error "Invalid hash length"))) ∧
    (∀ (s : String) (n : Nat),
       startsWith0x s = false → parseU64 s = some n →
       ((c.hashAt n = Except.ok none →
           get_start_block (some s) c = Except.error "Block not found") ∧
        (∀ h, c.hashAt n = Except.ok (some h) →
           get_start_block (some s) c = Except.ok h))) := by
  refine ⟨rfl, ?_, ?_⟩
  · intro s bytes hpre hdec
    constructor
    · intro hlen
      simp [get_start_block, hpre, hdec, hlen]
    · intro hlen
      simp [get_start_block, hpre, hdec, hlen]
  · intro s n hpre hparse
    constructor
    · intro hnone
      simp [get_start_block, hpre, hparse, hnone]
    · intro h hsome
      simp [get_start_block, hpre, hparse, hsome]

/-- Witness for C6_start_point_resolution: each branch exercised against
`totalClient` (whose only known height is 5). -/
theorem C6_start_point_resolution_witness :
    get_start_block none totalClient = Except.ok totalClient.best_hash ∧
    get_start_block (some hex64Zeros) totalClient =
      Except.ok (List.replicate 32 0) ∧
    get_start_block (some "0xabcd") totalClient =
      Except.error "Invalid hash length" ∧
    get_start_block (some "5") totalClient = Except.ok [5] ∧
    get_start_block (some "6") totalClient = Except.error "Block not found" := by
  have t := C6_start_point_resolution totalClient
  refine ⟨t.1, ?_, ?_, ?_, ?_⟩
  · exact (t.2.1 hex64Zeros (List.replicate 32 0) rfl (by decide)).1 (by decide)
  · exact (t.2.1 "0xabcd" [171, 205] rfl (by decide)).2 (by decide)
  · exact (t.2.2 "5" 5 rfl (by decide)).2 [5] rfl
  · exact (t.2.2 "6" 6 rfl (by decide)).1 rfl

/-! ## C8: record serialization format -/

/-- Every nibble renders to a lowercase hex digit. -/
theorem hexDigit_lower : ∀ n, n < 16 → isLowerHexChar (hexDigit n) = true := by
  decide

/-- `hex::encode` yields two characters per byte. -/
theorem hexEncodeList_length (bs : List Nat) :
    (hexEncodeList bs).length = 2 * bs.length := by
  induction bs with
  | nil => rfl
  | cons b rest ih => simp [hexEncodeList, ih]; ring

/-- `hex::encode` yields only lowercase hex characters. -/
theorem hexEncodeList_lower (bs : List Nat) :
    ∀ ch ∈ hexEncodeList bs, isLowerHexChar ch = true := by
  induction bs with
  | nil => simp [hexEncodeList]
  | cons b rest ih =>
      intro ch hch
      simp only [hexEncodeList, List.mem_cons] at hch
      rcases hch with h | h | h
      · exact h ▸ hexDigit_lower _ (by omega)
      · exact h ▸ hexDigit_lower _ (by omega)
      · exact ih ch h

/-- C8: every emitted record is one JSON object per append whose
`state_root` is the 0x-prefixed lowercase-hex rendering of the 32-byte
state hash (64 hex characters), and whose `stake_total` and
`emission_per_block` are decimal strings, not numerics. -/
theorem C8_record_format (m : BlockMetrics) (st : SimState) (fe : Nat)
    (hroot : m.state_root.length = 32) (hfe : 1 ≤ fe) :
    Json.lookup "state_root" (jsonOfMetrics m) =
      some (Json.str ("0x" ++ hexEncode m.state_root)) ∧
    (hexEncode m.state_root).length = 64 ∧
    (∀ ch ∈ (hexEncode m.state_root).toList, isLowerHexChar ch = true) ∧
    Json.lookup "subnets" (jsonOfMetrics m) =
      some (Json.arr (m.subnets.map subnetJson)) ∧
    (∀ s : SubnetMetric,
       Json.lookup "stake_total" (subnetJson s) =
         some (Json.str (Nat.repr s.stake_total)) ∧
       Json.lookup "emission_per_block" (subnetJson s) =
         some (Json.str (Nat.repr s.emission_per_block))) ∧
    write_metrics fe m st =
      WriteOutcome.ok
        ⟨st.block_count + 1,
         st.events ++ [Event.append (jsonOfMetrics m)] ++
           (if (st.block_count + 1) % fe = 0 then [Event.flush] else [])⟩ := by
  have hne : fe ≠ 0 := by omega
  refine ⟨rfl, ?_, ?_, rfl, ?_, ?_⟩
  · show (hexEncodeList m.state_root).length = 64
    rw [hexEncodeList_length, hroot]
  · intro ch hch
    exact hexEncodeList_lower m.state_root ch hch
  · intro s
    exact ⟨rfl, rfl⟩
  · by_cases hmod : (st.block_count + 1) % fe = 0
    · simp [write_metrics, hne, hmod]
    · simp [write_metrics, hne, hmod]

/-- Witness for C8_record_format on a concrete record and the empty state. -/
theorem C8_record_format_witness :
    Json.lookup "state_root" (jsonOfMetrics mW) =
      some (Json.str ("0x" ++ hexEncode mW.state_root)) ∧
    (hexEncode mW.state_root).length = 64 ∧
    (∀ ch ∈ (hexEncode mW.state_root).toList, isLowerHexChar ch = true) ∧
    Json.lookup "subnets" (jsonOfMetrics mW) =
      some (Json.arr (mW.subnets.map subnetJson)) ∧
    (∀ s : SubnetMetric,
       Json.lookup "stake_total" (subnetJson s) =
         some (Json.str (Nat.repr s.stake_total)) ∧
       Json.lookup "emission_per_block" (subnetJson s) =
         some (Json.str (Nat.repr s.emission_per_block))) ∧
    write_metrics 1 mW stEmpty =
      WriteOutcome.ok
        ⟨stEmpty.block_count + 1,
         stEmpty.events ++ [Event.append (jsonOfMetrics mW)] ++
           (if (stEmpty.block_count + 1) % 1 = 0 then [Event.flush] else [])⟩ :=
  C8_record_format mW stEmpty 1 (by decide) (by decide)

/-! ## Sink and stepper characterization lemmas -/

/-- Counting flushes distributes over append. -/
theorem countFlushes_append (xs ys : List Event) :
    countFlushes (xs ++ ys) = countFlushes xs + countFlushes ys := by
  simp [countFlushes, List.countP_append]

/-- Counting appends distributes over append. -/
theorem countAppends_append (xs ys : List Event) :
    countAppends (xs ++ ys) = countAppends xs + countAppends ys := by
  simp [countAppends, List.countP_append]

/-- With a nonzero flush interval, `write_metrics` appends exactly one line
and flushes exactly when the bumped counter is divisible by it. -/
theorem write_metrics_ok (fe : Nat) (hfe : 1 ≤ fe) (m : BlockMetrics)
    (st : SimState) :
    write_metrics fe m st =
      WriteOutcome.ok
        ⟨st.block_count + 1,
         st.events ++ [Event.append (jsonOfMetrics m)] ++
           (if (st.block_count + 1) % fe = 0 then [Event.flush] else [])⟩ := by
  have hne : fe ≠ 0 := by omega
  by_cases hmod : (st.block_count + 1) % fe = 0 <;> simp [write_metrics, hne, hmod]

/-- A failed step leaves the simulator state untouched. -/
theorem step_block_err_state (c : Client) (fe : Nat) (parent : Hash)
    (st : SimState) (e : String) (st1 : SimState)
    (h : step_block c fe parent st = StepOutcome.err e st1) : st1 = st := by
  unfold step_block at h
  repeat' (split at h)
  all_goals first
    | (cases h; rfl)
    | cases h

/-- With a nonzero flush interval a step never panics. -/
theorem step_block_no_panic (c : Client) (fe : Nat) (hfe : 1 ≤ fe)
    (parent : Hash) (st : SimState) (st1 : SimState)
    (h : step_block c fe parent st = StepOutcome.panicked st1) : False := by
  unfold step_block at h
  simp only [write_metrics_ok fe hfe] at h
  repeat' (split at h)
  all_goals cases h

/-- A successful step bumps the counter by one, appends exactly one record
and flushes exactly when the new counter is divisible by the interval. -/
theorem step_block_ok_counts (c : Client) (fe : Nat) (hfe : 1 ≤ fe)
    (parent : Hash) (st : SimState) (nh : Hash) (st1 : SimState)
    (h : step_block c fe parent st = StepOutcome.ok nh st1) :
    st1.block_count = st.block_count + 1 ∧
    countAppends st1.events = countAppends st.events + 1 ∧
    countFlushes st1.events =
      countFlushes st.events + (if (st.block_count + 1) % fe = 0 then 1 else 0) := by
  unfold step_block at h
  simp only [write_metrics_ok fe hfe] at h
  repeat' (split at h)
  all_goals try (cases h)
  all_goals refine ⟨rfl, ?_, ?_⟩
  all_goals simp_all [countAppends, countFlushes, List.countP_append,
    List.countP_cons, Event.isFlush]

/-- Singleton event counts. -/
theorem countAppends_flush : countAppends [Event.flush] = 0 := rfl

/-- Singleton event counts. -/
theorem countFlushes_flush : countFlushes [Event.flush] = 1 := rfl

/-- Singleton event counts. -/
theorem countAppends_one (l : Json) : countAppends [Event.append l] = 1 := rfl

/-- Singleton event counts. -/
theorem countFlushes_one (l : Json) : countFlushes [Event.append l] = 0 := rfl

/-- The last element after the final flush is that flush. -/
theorem getLast?_append_flush (xs : List Event) :
    (xs ++ [Event.flush]).getLast? = some Event.flush := by
  rw [List.getLast?_concat]

/-- Flush-count bookkeeping: one more append flushes exactly when the new
count is a multiple of the interval. -/
theorem flush_div_step (fe n : Nat) :
    n / fe + (if (n + 1) % fe = 0 then 1 else 0) = (n + 1) / fe := by
  rw [Nat.succ_div]
  by_cases hmod : (n + 1) % fe = 0
  · rw [if_pos hmod, if_pos (Nat.dvd_of_mod_eq_zero hmod)]
  · rw [if_neg hmod, if_neg fun hd => hmod (Nat.mod_eq_zero_of_dvd hd)]

/-- Loop with no remaining iterations: final flush, success. -/
theorem runLoop_zero (c : Client) (cancel : Nat → Bool) (fe pe idx : Nat)
    (cur : Hash) (st : SimState) (tr : List (Hash × Hash)) :
    runLoop c cancel fe pe 0 idx cur st tr =
      RunOutcome.ok ⟨st.block_count, st.events ++ [Event.flush]⟩ tr := rfl

/-- Loop observing the shutdown signal: break, final flush, success. -/
theorem runLoop_cancel_step (c : Client) (cancel : Nat → Bool)
    (fe pe r idx : Nat) (cur : Hash) (st : SimState)
    (tr : List (Hash × Hash)) (hc : cancel idx = true) :
    runLoop c cancel fe pe (r + 1) idx cur st tr =
      RunOutcome.ok ⟨st.block_count, st.events ++ [Event.flush]⟩ tr := by
  simp [runLoop, hc]

/-- Loop hitting a step error: propagate it, skipping the final flush and
the progress check. -/
theorem runLoop_err_step (c : Client) (cancel : Nat → Bool) (fe pe r idx : Nat)
    (cur : Hash) (st : SimState) (tr : List (Hash × Hash)) (e : String)
    (st1 : SimState) (hc : cancel idx = false)
    (hs : step_block c fe cur st = StepOutcome.err e st1) :
    runLoop c cancel fe pe (r + 1) idx cur st tr = RunOutcome.err e st1 tr := by
  simp [runLoop, hc, hs]

/-- Loop with a successful step and a nonzero progress interval: recurse
with the produced hash as parent. -/
theorem runLoop_ok_step (c : Client) (cancel : Nat → Bool) (fe pe r idx : Nat)
    (cur : Hash) (st : SimState) (tr : List (Hash × Hash)) (nh : Hash)
    (st1 : SimState) (hpe : 1 ≤ pe) (hc : cancel idx = false)
    (hs : step_block c fe cur st = StepOutcome.ok nh st1) :
    runLoop c cancel fe pe (r + 1) idx cur st tr =
      runLoop c cancel fe pe r (idx + 1) nh st1 (tr ++ [(cur, nh)]) := by
  have hne : pe ≠ 0 := by omega
  simp [runLoop, hc, hs, hne]

/-- Loop with a successful step but `progress_every = 0`: the progress
remainder `(i + 1) % 0` panics right after the step, its record already
appended and the trace entry produced. -/
theorem runLoop_progress_panic (c : Client) (cancel : Nat → Bool)
    (fe r idx : Nat) (cur : Hash) (st : SimState) (tr : List (Hash × Hash))
    (nh : Hash) (st1 : SimState) (hc : cancel idx = false)
    (hs : step_block c fe cur st = StepOutcome.ok nh st1) :
    runLoop c cancel fe 0 (r + 1) idx cur st tr =
      RunOutcome.panicked st1 (tr ++ [(cur, nh)]) := by
  simp [runLoop, hc, hs]

/-- Master invariant of the run loop, for any progress interval (a zero
one panics right after the first successful step): the ghost trace extends
by a contiguous chain from the current parent, one append per trace entry;
the flush count is the append count divided by the flush interval, plus
the final flush exactly on the `Ok` exits; and an `Ok` exit ends in a
flush. -/
theorem runLoop_master (c : Client) (cancel : Nat → Bool) (fe pe : Nat)
    (hfe : 1 ≤ fe) :
    ∀ (r idx : Nat) (cur : Hash) (st : SimState) (tr : List (Hash × Hash)),
      st.block_count = countAppends st.events →
      countFlushes st.events = st.block_count / fe →
      ∃ ext : List (Hash × Hash),
        (runLoop c cancel fe pe r idx cur st tr).trace = tr ++ ext ∧
        chainFrom cur ext = true ∧
        (runLoop c cancel fe pe r idx cur st tr).state.block_count
            = st.block_count + ext.length ∧
        countAppends (runLoop c cancel fe pe r idx cur st tr).state.events
            = countAppends st.events + ext.length ∧
        countFlushes (runLoop c cancel fe pe r idx cur st tr).state.events
            = (runLoop c cancel fe pe r idx cur st tr).state.block_count / fe
              + (if (runLoop c cancel fe pe r idx cur st tr).isOk = true
                 then 1 else 0) ∧
        ((runLoop c cancel fe pe r idx cur st tr).isOk = true →
          (runLoop c cancel fe pe r idx cur st tr).state.events.getLast?
            = some Event.flush) := by
  intro r
  induction r with
  | zero =>
      intro idx cur st tr h1 h2
      rw [runLoop_zero]
      refine ⟨[], ?_, rfl, ?_, ?_, ?_, ?_⟩
      · simp [RunOutcome.trace]
      · simp [RunOutcome.state]
      · simp [RunOutcome.state, countAppends_append, countAppends_flush]
      · simp [RunOutcome.state, RunOutcome.isOk, countFlushes_append,
              countFlushes_flush, h2]
      · intro _
        exact getLast?_append_flush st.events
  | succ r ih =>
      intro idx cur st tr h1 h2
      cases hc : cancel idx with
      | true =>
          rw [runLoop_cancel_step c cancel fe pe r idx cur st tr hc]
          refine ⟨[], ?_, rfl, ?_, ?_, ?_, ?_⟩
          · simp [RunOutcome.trace]
          · simp [RunOutcome.state]
          · simp [RunOutcome.state, countAppends_append, countAppends_flush]
          · simp [RunOutcome.state, RunOutcome.isOk, countFlushes_append,
                  countFlushes_flush, h2]
          · intro _
            exact getLast?_append_flush st.events
      | false =>
          cases hs : step_block c fe cur st with
          | panicked st1 =>
              exact (step_block_no_panic c fe hfe cur st st1 hs).elim
          | err e st1 =>
              rw [step_block_err_state c fe cur st e st1 hs] at hs
              rw [runLoop_err_step c cancel fe pe r idx cur st tr e st hc hs]
              refine ⟨[], ?_, rfl, ?_, ?_, ?_, ?_⟩
              · simp [RunOutcome.trace]
              · simp [RunOutcome.state]
              · simp [RunOutcome.state]
              · simp [RunOutcome.state, RunOutcome.isOk, h2]
              · intro hok
                simp [RunOutcome.isOk] at hok
          | ok nh st1 =>
              obtain ⟨hbc1, hap1, hfl1⟩ :=
                step_block_ok_counts c fe hfe cur st nh st1 hs
              have h1' : st1.block_count = countAppends st1.events := by
                rw [hbc1, hap1, h1]
              have h2' : countFlushes st1.events = st1.block_count / fe := by
                rw [hfl1, h2, hbc1]
                exact flush_div_step fe st.block_count
              by_cases hpe : pe = 0
              · subst hpe
                rw [runLoop_progress_panic c cancel fe r idx cur st tr nh st1
                      hc hs]
                refine ⟨[(cur, nh)], ?_, ?_, ?_, ?_, ?_, ?_⟩
                · simp [RunOutcome.trace]
                · simp [chainFrom]
                · simp [RunOutcome.state, hbc1]
                · simp [RunOutcome.state, hap1]
                · simp [RunOutcome.state, RunOutcome.isOk, h2']
                · intro hok
                  simp [RunOutcome.isOk] at hok
              · obtain ⟨ext, htr, hch, hbc, hap, hfl, hlast⟩ :=
                  ih (idx + 1) nh st1 (tr ++ [(cur, nh)]) h1' h2'
                rw [runLoop_ok_step c cancel fe pe r idx cur st tr nh st1
                      (by omega) hc hs]
                refine ⟨(cur, nh) :: ext, ?_, ?_, ?_, ?_, hfl, hlast⟩
                · rw [htr]
                  simp [List.append_assoc]
                · simp [chainFrom, hch]
                · rw [hbc, hbc1]
                  simp only [List.length_cons]
                  omega
                · rw [hap, hap1]
                  simp only [List.length_cons]
                  omega

/-- When both resolutions succeed, `run` is the loop from a fresh state. -/
theorem run_eq (cli : Cli) (c : Client) (cancel : Nat → Bool) (start : Hash)
    (H : Nat) (hs : get_start_block cli.start_block c = Except.ok start)
    (hH : get_horizon_blocks cli.horizon_blocks cli.horizon_days = Except.ok H) :
    run cli c cancel =
      runLoop c cancel cli.flush_every cli.progress_every H 0 start ⟨0, []⟩ [] := by
  simp [run, hs, hH]

/-- Against a client whose operations all succeed, every step succeeds and
emits exactly one record. -/
theorem step_block_total (c : Client) (hct : ClientTotal c) (fe : Nat)
    (hfe : 1 ≤ fe) (parent : Hash) (st : SimState) :
    ∃ nh st1, step_block c fe parent st = StepOutcome.ok nh st1 ∧
      st1.block_count = st.block_count + 1 ∧
      countAppends st1.events = countAppends st.events + 1 := by
  obtain ⟨hh, ⟨d, hd⟩, hb, hi, hm⟩ := hct
  obtain ⟨b, hbb⟩ := hb parent d.extrinsics
  obtain ⟨m, hmm⟩ := hm b.hash
  refine ⟨b.hash,
    ⟨st.block_count + 1,
     st.events ++ [Event.append (jsonOfMetrics m)] ++
       (if (st.block_count + 1) % fe = 0 then [Event.flush] else [])⟩,
    ?_, rfl, ?_⟩
  · simp [step_block, hh, hd, hbb, hi, hmm, write_metrics_ok fe hfe]
  · by_cases hmod : (st.block_count + 1) % fe = 0 <;>
      simp [hmod, countAppends, List.countP_append, List.countP_cons, Event.isFlush]

/-- `totalClient` satisfies `ClientTotal`. -/
theorem totalClient_total : ClientTotal totalClient :=
  ⟨fun _ => rfl, ⟨⟨[]⟩, rfl⟩, fun p _ => ⟨⟨p ++ [9]⟩, rfl⟩, fun _ => rfl,
   fun h => ⟨⟨h.length, List.replicate 32 0, 0, []⟩, rfl⟩⟩

/-- If the shutdown signal is first observed at the n-th future boundary
(steps cannot fail and the progress interval is nonzero), the loop performs
exactly n more steps, then the final flush, and exits successfully. -/
theorem runLoop_cancel_exact (c : Client) (cancel : Nat → Bool) (fe pe : Nat)
    (hfe : 1 ≤ fe) (hpe : 1 ≤ pe) (hct : ClientTotal c) :
    ∀ (n r idx : Nat) (cur : Hash) (st : SimState) (tr : List (Hash × Hash)),
      n < r →
      (∀ j, j < n → cancel (idx + j) = false) →
      cancel (idx + n) = true →
      ∃ st1 tr1, runLoop c cancel fe pe r idx cur st tr = RunOutcome.ok st1 tr1 ∧
        st1.block_count = st.block_count + n ∧
        countAppends st1.events = countAppends st.events + n ∧
        st1.events.getLast? = some Event.flush := by
  intro n
  induction n with
  | zero =>
      intro r idx cur st tr hr hbefore hat
      obtain ⟨r1, rfl⟩ : ∃ r1, r = r1 + 1 := ⟨r - 1, by omega⟩
      rw [runLoop_cancel_step c cancel fe pe r1 idx cur st tr (by simpa using hat)]
      exact ⟨_, _, rfl, by simp,
             by simp [countAppends_append, countAppends_flush],
             getLast?_append_flush st.events⟩
  | succ n ihn =>
      intro r idx cur st tr hr hbefore hat
      obtain ⟨r1, rfl⟩ : ∃ r1, r = r1 + 1 := ⟨r - 1, by omega⟩
      have hc0 : cancel idx = false := by simpa using hbefore 0 (by omega)
      obtain ⟨nh, st1, hs, hbc1, hap1⟩ := step_block_total c hct fe hfe cur st
      rw [runLoop_ok_step c cancel fe pe r1 idx cur st tr nh st1 hpe hc0 hs]
      have hbefore1 : ∀ j, j < n → cancel (idx + 1 + j) = false := by
        intro j hj
        have hx := hbefore (j + 1) (by omega)
        rwa [show idx + (j + 1) = idx + 1 + j by omega] at hx
      have hat1 : cancel (idx + 1 + n) = true := by
        rwa [show idx + (n + 1) = idx + 1 + n by omega] at hat
      obtain ⟨st2, tr2, hrun, hbc2, hap2, hlast⟩ :=
        ihn r1 (idx + 1) nh st1 (tr ++ [(cur, nh)]) (by omega) hbefore1 hat1
      exact ⟨st2, tr2, hrun, by omega, by omega, hlast⟩

/-! ## C1: flush discipline -/

/-- C1 as frozen is false: on a mid-run step error the `?` in the run loop
propagates before the final flush is reached (and `process::exit(1)` skips
the `BufWriter` destructor), so a run aborted by a rejected import ends
with no flush at all — here one record was appended and zero flushes
happened, where the claim requires the unconditional end-of-run flush. -/
theorem C1_counterexample :
    (run baseCli rejectClient noCancel).isErr = true ∧
    countFlushes (run baseCli rejectClient noCancel).events = 0 ∧
    countAppends (run baseCli rejectClient noCancel).events = 1 :=
  ⟨rfl, rfl, rfl⟩

/-- C1 (amended): with a nonzero flush interval, the sink flushes after
every `flush_every`-th successful append (so the in-run flush count is the
append count divided by `flush_every`), and exactly one additional
unconditional flush happens at run end on successful completion and on
cancellation; a run ending in a mid-run step error performs no final
flush. -/
theorem C1_flush_discipline (cli : Cli) (c : Client) (cancel : Nat → Bool)
    (hfe : 1 ≤ cli.flush_every) :
    countFlushes (run cli c cancel).events =
      countAppends (run cli c cancel).events / cli.flush_every
      + (if (run cli c cancel).isOk = true then 1 else 0) := by
  cases hs : get_start_block cli.start_block c with
  | error e =>
      simp [run, hs, RunOutcome.events, RunOutcome.state, RunOutcome.isOk,
            countFlushes, countAppends]
  | ok start =>
      cases hH : get_horizon_blocks cli.horizon_blocks cli.horizon_days with
      | error e =>
          simp [run, hs, hH, RunOutcome.events, RunOutcome.state,
                RunOutcome.isOk, countFlushes, countAppends]
      | ok H =>
          rw [run_eq cli c cancel start H hs hH]
          obtain ⟨ext, htr, hch, hbc, hap, hfl, hlast⟩ :=
            runLoop_master c cancel cli.flush_every cli.progress_every hfe
              H 0 start ⟨0, []⟩ [] rfl (by simp [countFlushes])
          have hbc2 : (runLoop c cancel cli.flush_every cli.progress_every
                H 0 start ⟨0, []⟩ []).state.block_count
              = countAppends (runLoop c cancel cli.flush_every cli.progress_every
                  H 0 start ⟨0, []⟩ []).state.events := by
            rw [hbc, hap]
            simp [countAppends]
          simp only [RunOutcome.events]
          rw [hfl, hbc2]

/-- Witness for C1_flush_discipline on a full 10-block run. -/
theorem C1_flush_discipline_witness :
    countFlushes (run baseCli totalClient noCancel).events =
      countAppends (run baseCli totalClient noCancel).events / baseCli.flush_every
      + (if (run baseCli totalClient noCancel).isOk = true then 1 else 0) :=
  C1_flush_discipline baseCli totalClient noCancel (by decide)

/-! ## C2: chain continuity -/

/-- C2: the ghost trace of any run is a contiguous chain from the resolved
start hash — each step's parent is the previous step's produced hash — and
exactly one record is appended per chained step; steps are strictly
sequential, so block i+1 is only ever built after block i imported. -/
theorem C2_chain_continuity (cli : Cli) (c : Client) (cancel : Nat → Bool)
    (start : Hash) (hfe : 1 ≤ cli.flush_every)
    (hs : get_start_block cli.start_block c = Except.ok start) :
    chainFrom start (run cli c cancel).trace = true ∧
    countAppends (run cli c cancel).events = (run cli c cancel).trace.length := by
  cases hH : get_horizon_blocks cli.horizon_blocks cli.horizon_days with
  | error e =>
      constructor <;>
        simp [run, hs, hH, RunOutcome.trace, RunOutcome.events,
              RunOutcome.state, countAppends, chainFrom]
  | ok H =>
      rw [run_eq cli c cancel start H hs hH]
      obtain ⟨ext, htr, hch, hbc, hap, hfl, hlast⟩ :=
        runLoop_master c cancel cli.flush_every cli.progress_every hfe
          H 0 start ⟨0, []⟩ [] rfl (by simp [countFlushes])
      constructor
      · rw [htr]
        simpa using hch
      · simp only [RunOutcome.events]
        rw [hap, htr]
        simp [countAppends]

/-- Witness for C2_chain_continuity on a full 10-block run. -/
theorem C2_chain_continuity_witness :
    chainFrom [0] (run baseCli totalClient noCancel).trace = true ∧
    countAppends (run baseCli totalClient noCancel).events =
      (run baseCli totalClient noCancel).trace.length :=
  C2_chain_continuity baseCli totalClient noCancel [0] (by decide) rfl

/-! ## C3: rejected import is fatal and emits nothing -/

/-- C3: when the built block's import is rejected, the step fails with
that import error and the simulator state is untouched — no record is appended
and no flush happens for that block — and the surrounding run loop
propagates that error immediately, performing no further steps. -/
theorem C3_import_rejection_no_emit (c : Client) (fe : Nat) (parent : Hash)
    (st : SimState) (d : InherentData) (b : Block) (e : String)
    (hh : c.header parent = Except.ok (some ()))
    (hd : c.create_inherent_data = Except.ok d)
    (hb : c.build_block parent d.extrinsics = Except.ok b)
    (hi : c.import_block b = Except.ok (Except.error e)) :
    step_block c fe parent st =
      StepOutcome.err ("Failed to import block: " ++ e) st ∧
    (∀ (cancel : Nat → Bool) (pe idx r : Nat) (tr : List (Hash × Hash)),
       cancel idx = false →
       runLoop c cancel fe pe (r + 1) idx parent st tr =
         RunOutcome.err ("Failed to import block: " ++ e) st tr) := by
  have hstep : step_block c fe parent st =
      StepOutcome.err ("Failed to import block: " ++ e) st := by
    simp [step_block, hh, hd, hb, hi]
  exact ⟨hstep, fun cancel pe idx r tr hc =>
    runLoop_err_step c cancel fe pe r idx parent st tr _ st hc hstep⟩

/-- Witness for C3_import_rejection_no_emit: `rejectClient` rejects the
block built on parent `[0, 0]`. -/
theorem C3_import_rejection_no_emit_witness :
    step_block rejectClient 100 [0, 0] stEmpty =
      StepOutcome.err ("Failed to import block: " ++ "rejected") stEmpty ∧
    (∀ (cancel : Nat → Bool) (pe idx r : Nat) (tr : List (Hash × Hash)),
       cancel idx = false →
       runLoop rejectClient cancel 100 pe (r + 1) idx [0, 0] stEmpty tr =
         RunOutcome.err ("Failed to import block: " ++ "rejected") stEmpty tr) :=
  C3_import_rejection_no_emit rejectClient 100 [0, 0] stEmpty ⟨[]⟩ ⟨[0, 0, 9]⟩
    "rejected" rfl rfl rfl rfl

/-! ## C7: graceful cancellation -/

/-- C7: if the shutdown signal is first observed at the loop boundary
between iterations i and i+1 (with i inside the horizon), no step can
fail, and the flush and progress intervals are nonzero (a zero one panics
instead), the run stops without starting iteration i+1: exactly i records
were emitted, the sink's final flush is the last event, and the process
exits with code 0. -/
theorem C7_cancellation_graceful (cli : Cli) (c : Client) (cancel : Nat → Bool)
    (i H : Nat) (start : Hash) (hct : ClientTotal c)
    (hfe : 1 ≤ cli.flush_every) (hpe : 1 ≤ cli.progress_every)
    (hs : get_start_block cli.start_block c = Except.ok start)
    (hH : get_horizon_blocks cli.horizon_blocks cli.horizon_days = Except.ok H)
    (hiH : i < H)
    (hbefore : ∀ j, j < i → cancel j = false)
    (hat : cancel i = true) :
    (∃ st1 tr1, run cli c cancel = RunOutcome.ok st1 tr1 ∧
       st1.block_count = i ∧ countAppends st1.events = i ∧
       st1.events.getLast? = some Event.flush) ∧
    mainExitCode (mainSim cli c cancel) = 0 := by
  have hb0 : ∀ j, j < i → cancel (0 + j) = false := by
    intro j hj
    simpa using hbefore j hj
  have hat0 : cancel (0 + i) = true := by simpa using hat
  obtain ⟨st1, tr1, hrun, hbc, hap, hlast⟩ :=
    runLoop_cancel_exact c cancel cli.flush_every cli.progress_every hfe hpe
      hct i H 0 start ⟨0, []⟩ [] hiH hb0 hat0
  have hrun2 : run cli c cancel = RunOutcome.ok st1 tr1 := by
    rw [run_eq cli c cancel start H hs hH]
    exact hrun
  refine ⟨⟨st1, tr1, hrun2, by simpa using hbc,
          by simpa [countAppends] using hap, hlast⟩, ?_⟩
  rcases hx : cli.horizon_blocks with _ | bks <;>
    rcases hy : cli.horizon_days with _ | dys
  · rw [hx, hy] at hH
    simp [get_horizon_blocks] at hH
  · simp [mainSim, mainExitCode, hx, hy, hrun2]
  · simp [mainSim, mainExitCode, hx, hy, hrun2]
  · rw [hx, hy] at hH
    simp [get_horizon_blocks] at hH

/-- Witness for C7_cancellation_graceful: a 5-block horizon cancelled at
the boundary after two completed iterations. -/
theorem C7_cancellation_graceful_witness :
    (∃ st1 tr1, run cliHorizon5 totalClient cancelAtTwo = RunOutcome.ok st1 tr1 ∧
       st1.block_count = 2 ∧ countAppends st1.events = 2 ∧
       st1.events.getLast? = some Event.flush) ∧
    mainExitCode (mainSim cliHorizon5 totalClient cancelAtTwo) = 0 :=
  C7_cancellation_graceful cliHorizon5 totalClient cancelAtTwo 2 5 [0]
    totalClient_total (by decide) (by decide) rfl rfl (by decide) (by decide)
    (by decide)
